import Mathlib

/-!
Verification of the call-analytics ingestion-to-result pipeline.

Shallow embedding of the backend sources:
  * `src/backend/app/services/llm_service.py`      (`LLMService`)
  * `src/backend/app/services/diarization.py`      (`DiarizationService`)
  * `src/backend/app/services/pipeline.py`         (`PipelineOrchestrator`)
  * `src/backend/app/services/queue.py`            (`QueueManager`)
  * `src/backend/app/services/audio_validator.py`  (validator)
  * `src/backend/app/routers/upload.py`            (upload router)

Conventions: Python ints are `Int`/`Nat`; Python floats are modelled as exact
fractions together with an explicit binary64 rounding function where the float
semantics matters (the score-weighting computation); strings are `String`; and
fallible paths return `Option`.  External engines (OpenAI, Whisper, pyannote,
ffprobe) are oracles: their outcomes are explicit parameters.
-/

set_option maxRecDepth 1000000

namespace CallAnalytics

/-! ## Exact fractions

A minimal unnormalised fraction type over `ℤ`.  All constructions below keep
the denominator strictly positive, so the comparison and floor operations
(written by cross-multiplication) are the usual rational ones.  (Mathlib's `ℚ`
is not used because its arithmetic is irreducible to the kernel, which would
block `decide`-style evaluation of the embedded computations.) -/

structure Frac where
  num : ℤ
  den : ℤ
deriving Repr, DecidableEq

namespace Frac

def ofInt (n : ℤ) : Frac := ⟨n, 1⟩

def add (a b : Frac) : Frac := ⟨a.num * b.den + b.num * a.den, a.den * b.den⟩

def sub (a b : Frac) : Frac := ⟨a.num * b.den - b.num * a.den, a.den * b.den⟩

def mul (a b : Frac) : Frac := ⟨a.num * b.num, a.den * b.den⟩

/-- Division; callers only divide by fractions with positive numerator. -/
def div (a b : Frac) : Frac := ⟨a.num * b.den, a.den * b.num⟩

/-- `a < b` as a boolean, valid for positive denominators. -/
def blt (a b : Frac) : Bool := decide (a.num * b.den < b.num * a.den)

/-- Floor of a fraction with positive denominator. -/
def floor (a : Frac) : ℤ := Int.fdiv a.num a.den

/-- `2 ^ e` as a fraction, for any integer exponent. -/
def pow2 (e : ℤ) : Frac := if 0 ≤ e then ⟨2 ^ e.toNat, 1⟩ else ⟨1, 2 ^ (-e).toNat⟩

/-- The value of a fraction in `ℚ` (for stating exactness lemmas). -/
def val (a : Frac) : ℚ := (a.num : ℚ) / (a.den : ℚ)

end Frac

/-! ## Binary64 model

`LLMService._parse_and_validate` computes
`round(standard * 0.4 + loyalty * 0.3 + kindness * 0.3)` in Python, i.e. in
IEEE-754 binary64 arithmetic with the literals `0.4` and `0.3` denoting the
doubles nearest to 2/5 and 3/10.  Every value occurring in that computation is
a nonnegative double far from overflow and underflow, so binary64 is modelled
as exact fractions plus correct rounding (round to nearest, ties to even) at
each operation.  `round` on a Python float rounds the float's exact binary
value to the nearest integer, ties to even. -/

/-- Round a fraction to the nearest integer, ties to even
(this is what Python's builtin `round` does on a float). -/
def roundHalfEven (q : Frac) : ℤ :=
  let f := Frac.floor q
  let r := Frac.sub q (Frac.ofInt f)
  if Frac.blt r ⟨1, 2⟩ then f
  else if Frac.blt ⟨1, 2⟩ r then f + 1
  else if f % 2 = 0 then f else f + 1

/-- Greatest exponent `e ≥ -60` with `2^e ≤ q`, found by fuelled linear search
(adequate for the bounded magnitudes arising in the score computation). -/
def exp2le (q : Frac) : ℤ :=
  go 140 (-60)
where
  go : ℕ → ℤ → ℤ
  | 0, e => e
  | n + 1, e => if Frac.blt q (Frac.pow2 (e + 1)) then e else go n (e + 1)

/-- Round a nonnegative fraction to the nearest binary64 value
(round to nearest, ties to even).  All intermediate values of the embedded
computation are nonnegative normal doubles, so the sign, subnormal and
overflow cases of IEEE-754 never arise and are not modelled. -/
def flq (q : Frac) : Frac :=
  if q.num ≤ 0 then Frac.ofInt 0
  else
    let u := Frac.pow2 (exp2le q - 52)
    Frac.mul (Frac.ofInt (roundHalfEven (Frac.div q u))) u

/-- The binary64 value of the Python literal `0.4`. -/
def c04 : Frac := flq ⟨2, 5⟩

/-- The binary64 value of the Python literal `0.3`. -/
def c03 : Frac := flq ⟨3, 10⟩

/-- Binary64 multiplication (exact product, correctly rounded). -/
def fmul (a b : Frac) : Frac := flq (Frac.mul a b)

/-- Binary64 addition (exact sum, correctly rounded). -/
def fadd (a b : Frac) : Frac := flq (Frac.add a b)

/-- `round(s * 0.4 + l * 0.3 + k * 0.3)` exactly as Python evaluates it
(left-associated, each operation correctly rounded to binary64; the integer
operands, being at most 100 in magnitude, convert to doubles exactly).
From `llm_service.py`, `_parse_and_validate`: the `expected_overall`
computation. -/
def expected_overall (s l k : ℤ) : ℤ :=
  roundHalfEven
    (fadd (fadd (fmul (Frac.ofInt s) c04) (fmul (Frac.ofInt l) c03))
      (fmul (Frac.ofInt k) c03))

/-- Exact-arithmetic reading of the specification's
`round(0.4·standard + 0.3·loyalty + 0.3·kindness)` (invariant I6): the
weighted mean computed over the exact rationals and rounded to the nearest
integer, ties to even (matching Python's builtin `round`; at the input used
below to separate specification from code the exact value is a half-integer
that rounds up under both the ties-to-even and the round-half-up
conventions). -/
def spec_expected_overall (s l k : ℤ) : ℤ :=
  roundHalfEven
    (Frac.add (Frac.add (Frac.mul ⟨2, 5⟩ (Frac.ofInt s)) (Frac.mul ⟨3, 10⟩ (Frac.ofInt l)))
      (Frac.mul ⟨3, 10⟩ (Frac.ofInt k)))

/-! ## JSON values and Python conversions

`LLMService._parse_and_validate` consumes the value produced by `json.loads`
after stripping fenced code marks.  The string-level steps (fence stripping
and JSON tokenisation, both done by external library code) are abstracted:
the input of the embedded parser is the parse outcome, `none` standing for
`json.JSONDecodeError` and `some j` for a successfully decoded value `j`.
JSON numbers are exact fractions (`json.loads` yields ints and floats). -/

inductive Json where
  | null
  | bool (b : Bool)
  | num (q : Frac)
  | str (s : String)
  | arr (items : List Json)
  | obj (fields : List (String × Json))

/-- Key lookup in a decoded JSON object (Python `dict` access; keys are unique
after `json.loads`, so first match is the value). -/
def lookupJ (fields : List (String × Json)) (k : String) : Option Json :=
  (fields.find? (fun p => p.1 == k)).map (fun p => p.2)

/-- Python `k in d` / `d.keys()` membership. -/
def hasKeyJ (fields : List (String × Json)) (k : String) : Bool :=
  fields.any (fun p => p.1 == k)

/-- `d[k]` under a key-presence guard. -/
def jget (fields : List (String × Json)) (k : String) : Json :=
  (lookupJ fields k).getD Json.null

/-- Python `str.strip()`: remove whitespace from both ends. -/
def pyStrip (s : String) : String :=
  ⟨(((s.data.dropWhile Char.isWhitespace).reverse.dropWhile Char.isWhitespace).reverse)⟩

/-- Python `int(float)`: truncation toward zero. -/
def pyTrunc (a : Frac) : ℤ :=
  if 0 ≤ a.num then Int.fdiv a.num a.den else -(Int.fdiv (-a.num) a.den)

/-- Python `int(str)` digit run: base-10 digits with single underscores
allowed between digits. -/
def pyDigitsGo (acc : ℕ) : List Char → Option ℕ
  | [] => some acc
  | '_' :: c :: cs =>
      if c.isDigit then pyDigitsGo (acc * 10 + (c.toNat - 48)) cs else none
  | ['_'] => none
  | c :: cs =>
      if c.isDigit then pyDigitsGo (acc * 10 + (c.toNat - 48)) cs else none

/-- Python `int(str)` unsigned part: a nonempty digit run. -/
def pyDigits : List Char → Option ℕ
  | [] => none
  | c :: cs => if c.isDigit then pyDigitsGo (c.toNat - 48) cs else none

/-- Python `int(str)`: optional surrounding whitespace, optional sign,
base-10 digits (raises `ValueError` otherwise → `none`). -/
def pyIntOfString (s : String) : Option ℤ :=
  match (pyStrip s).toList with
  | '+' :: cs => (pyDigits cs).map (fun n => (n : ℤ))
  | '-' :: cs => (pyDigits cs).map (fun n => -(n : ℤ))
  | cs => (pyDigits cs).map (fun n => (n : ℤ))

/-- Python `int(x)` on a decoded JSON value: ints/floats truncate, bools are
0/1, numeric strings parse; everything else raises (`TypeError`/`ValueError`),
modelled as `none`. -/
def pyInt : Json → Option ℤ
  | Json.num q => some (pyTrunc q)
  | Json.bool b => some (if b then 1 else 0)
  | Json.str s => pyIntOfString s
  | _ => none

/-- Python `str(x)` on a decoded JSON value.  Strings pass through unchanged;
the renderings of the other shapes are abbreviated (they are all non-empty,
as in Python, and no downstream code inspects them further). -/
def pyStrOf : Json → String
  | Json.str s => s
  | Json.null => "None"
  | Json.bool b => if b then "True" else "False"
  | Json.num q =>
      if q.den = 1 then toString q.num else toString q.num ++ "/" ++ toString q.den
  | Json.arr _ => "[...]"
  | Json.obj _ => "\x7b...\x7d"

/-! ## `LLMService` (`llm_service.py`) -/

/-- A validated quote (`_parse_and_validate`, quote loop). -/
structure Quote where
  text : String
  criterion : String
  sentiment : String
deriving Repr, DecidableEq

/-- `AnalysisResult` dataclass (`partial` is renamed `isPartial`). -/
structure AnalysisResult where
  standard : ℤ
  loyalty : ℤ
  kindness : ℤ
  overall : ℤ
  summary : String
  quotes : List Quote
  llm_model : String
  isPartial : Bool
deriving Repr, DecidableEq

/-- `MAX_RETRIES` constant. -/
def MAX_RETRIES : ℕ := 3

/-- The required response keys of `_parse_and_validate`. -/
def requiredKeys : List String := ["standard", "loyalty", "kindness", "overall", "summary"]

/-- `max(0, min(100, val))` — the clamp applied to each score. -/
def clamp0_100 (v : ℤ) : ℤ := max 0 (min 100 v)

/-- Whether a score is in range (the `0 <= val <= 100` test guarding the
clamp-and-mark-partial branch). -/
def scoreInRange (v : ℤ) : Bool := decide (0 ≤ v) && decide (v ≤ 100)

/-- One quote of the `quotes` list: kept only when it is an object with
`text` and `criterion` keys; `sentiment` defaults to `"neutral"`. -/
def validQuote : Json → Option Quote
  | Json.obj f =>
      if hasKeyJ f "text" && hasKeyJ f "criterion" then
        some ⟨pyStrOf (jget f "text"), pyStrOf (jget f "criterion"),
          pyStrOf ((lookupJ f "sentiment").getD (Json.str "neutral"))⟩
      else none
  | _ => none

/-- The tail of `_parse_and_validate` after the four scores converted to int:
clamping with the `partial` mark, summary extraction, quote filtering, and
the `expected_overall` recomputation that overrides the engine's overall when
it differs by more than 5. -/
def finishResult (fields : List (String × Json)) (std0 loy0 kind0 ov0 : ℤ) :
    AnalysisResult :=
  let pClamp := !scoreInRange std0 || !scoreInRange loy0 ||
    !scoreInRange kind0 || !scoreInRange ov0
  let std := clamp0_100 std0
  let loy := clamp0_100 loy0
  let kind := clamp0_100 kind0
  let ov := clamp0_100 ov0
  let summary := pyStrip (pyStrOf (jget fields "summary"))
  let pSummary := summary == ""
  let quotesJson := (lookupJ fields "quotes").getD (Json.arr [])
  let quotesPair : List Quote × Bool :=
    match quotesJson with
    | Json.arr xs => (xs.filterMap validQuote, false)
    | _ => ([], true)
  let expected := expected_overall std loy kind
  let ovFinal := if 5 < (ov - expected).natAbs then expected else ov
  ⟨std, loy, kind, ovFinal, summary, quotesPair.1, "gpt-4",
    pClamp || pSummary || quotesPair.2⟩

/-- `_parse_and_validate`: `none` for a decode error, a non-object value, a
missing required key, or a required score that `int()` cannot convert;
otherwise the validated result. -/
def parse_and_validate (input : Option Json) : Option AnalysisResult :=
  match input with
  | none => none
  | some (Json.obj fields) =>
      if requiredKeys.all (fun k => hasKeyJ fields k) then
        match pyInt (jget fields "standard"), pyInt (jget fields "loyalty"),
            pyInt (jget fields "kindness"), pyInt (jget fields "overall") with
        | some std0, some loy0, some kind0, some ov0 =>
            some (finishResult fields std0 loy0 kind0 ov0)
        | _, _, _, _ => none
      else none
  | some _ => none

/-- Outcome of one `_call_api` attempt: `none` = the call raised an
exception; `some p` = the call returned text whose fence-stripped
`json.loads` outcome is `p`. -/
abbrev AttemptOutcome := Option (Option Json)

/-- `_call_with_retry`: walk the attempts in order (the caller supplies
`MAX_RETRIES` of them); an exception or an invalid response moves on to the
next attempt; when every attempt is used up the result is `none` (graceful
degradation).  The strict-prompt switch and the backoff sleeps affect only
what is sent, never the control flow, and are not modelled. -/
def call_with_retry : List AttemptOutcome → Option AnalysisResult
  | [] => none
  | o :: rest =>
      match o with
      | none => call_with_retry rest
      | some p =>
          match parse_and_validate p with
          | some r => some r
          | none => call_with_retry rest

/-- `LLMService.analyze`: `none` when the API key is not configured, when the
operator text is blank after stripping, or when every retry attempt fails. -/
def analyze (hasApiKey : Bool) (operatorText : String)
    (attempts : List AttemptOutcome) : Option AnalysisResult :=
  if !hasApiKey then none
  else if pyStrip operatorText = "" then none
  else call_with_retry attempts

/-- The spec's list of reasons for an unavailable analysis, following the
claim's words: missing credential, all retry attempts exhausted (every call
raised), a response unparseable as a JSON object, or a response missing a
required field. -/
def spec_unavailable (hasApiKey : Bool) (attempts : List AttemptOutcome) : Bool :=
  !hasApiKey || attempts.all (fun o => o.isNone) ||
    attempts.any (fun o =>
      match o with
      | some none => true
      | some (some (Json.obj _)) => false
      | some (some _) => true
      | none => false) ||
    attempts.any (fun o =>
      match o with
      | some (some (Json.obj fields)) => !(requiredKeys.all (fun k => hasKeyJ fields k))
      | _ => false)

/-! ## Claims C3 and C6 -/

/-- Concrete engine response separating the specification's exact-arithmetic
`round` from the code's binary64 one: scores (0, 1, 24) have exact weighted
mean 7.5 (rounding to 8), but Python's float evaluation lands just below 7.5
and rounds to 7. -/
def c3_fields : List (String × Json) :=
  [("standard", Json.num (Frac.ofInt 0)), ("loyalty", Json.num (Frac.ofInt 1)),
    ("kindness", Json.num (Frac.ofInt 24)), ("overall", Json.num (Frac.ofInt 15)),
    ("summary", Json.str "ok")]

/-- The result the code stores for `c3_fields`. -/
def c3_result : AnalysisResult := ⟨0, 1, 24, 7, "ok", [], "gpt-4", false⟩

/-- A fully valid engine response used to refute C6. -/
def c6_good : Json :=
  Json.obj [("standard", Json.num (Frac.ofInt 80)), ("loyalty", Json.num (Frac.ofInt 70)),
    ("kindness", Json.num (Frac.ofInt 90)), ("overall", Json.num (Frac.ofInt 80)),
    ("summary", Json.str "fine")]

/-! ## `DiarizationService` (`diarization.py`)

Audio samples and time stamps are binary64 values, modelled as exact
fractions.  The ffmpeg/ffprobe decoding steps are external: the decoded
channel data, the probed channel count and the probed duration enter as
parameters. -/

/-- `a ≤ b` as a boolean, valid for positive denominators. -/
def Frac.ble (a b : Frac) : Bool := decide (a.num * b.den ≤ b.num * a.den)

/-- One Whisper word timing: `{word, start, end}` (the `end` key is named
`stop` here because `end` is reserved in Lean). -/
structure Word where
  word : String
  start : Frac
  stop : Frac
deriving Repr, DecidableEq

/-- `TranscriptSegment` dataclass (`end` renamed `stop`). -/
structure TranscriptSegment where
  speaker : String
  start : Frac
  stop : Frac
  text : String
deriving Repr, DecidableEq

/-- `DiarizationSegment` dataclass (`end` renamed `stop`). -/
structure DiarizationSegment where
  speaker : String
  start : Frac
  stop : Frac
deriving Repr, DecidableEq

/-- `DiarizationResult` dataclass. -/
structure DiarizationResult where
  segments : List DiarizationSegment
  transcript_segments : List TranscriptSegment
  method : String
  confidence : Option Frac
  num_speakers : ℤ
  warnings : List String
deriving Repr, DecidableEq

/-- The loop body of `_merge_adjacent_segments`: `current` accumulates
consecutive words of the same speaker (extending `end` and appending the text
with a single space); a speaker change flushes `current`. -/
def mergeGo (current : TranscriptSegment) :
    List TranscriptSegment → List TranscriptSegment
  | [] => [current]
  | w :: ws =>
      if w.speaker = current.speaker then
        mergeGo ⟨current.speaker, current.start, w.stop, current.text ++ " " ++ w.text⟩ ws
      else current :: mergeGo w ws

/-- `_merge_adjacent_segments`. -/
def merge_adjacent_segments : List TranscriptSegment → List TranscriptSegment
  | [] => []
  | w :: ws => mergeGo w ws

/-- The warning recorded when `HF_TOKEN` is not configured. -/
def hfTokenWarning : String :=
  "Диаризация недоступна: HF_TOKEN не настроен. Весь текст помечен как оператор."

/-- `_fallback_single_speaker`: one operator segment spanning the probed
duration; every transcript word labelled `operator`, then merged. -/
def fallback_single_speaker (duration : Frac) (word_timestamps : List Word)
    (warnings : List String) : DiarizationResult :=
  let segments := [DiarizationSegment.mk "operator" (Frac.ofInt 0) duration]
  let transcript_segments :=
    word_timestamps.map (fun w => TranscriptSegment.mk "operator" w.start w.stop w.word)
  ⟨segments, merge_adjacent_segments transcript_segments, "pyannote", none, 1, warnings⟩

/-- `_diarize_mono`: with no `HF_TOKEN` the service falls back to the
single-speaker result (with the warning); otherwise it runs the pyannote
engine and post-processes its output — that branch is an oracle
(`pyannoteResult`), since no claim depends on it. -/
def diarize_mono (hf_token : String) (duration : Frac) (word_timestamps : List Word)
    (pyannoteResult : DiarizationResult) : DiarizationResult :=
  if hf_token = "" then
    fallback_single_speaker duration word_timestamps [hfTokenWarning]
  else pyannoteResult

/-- `DiarizationService.diarize`: strategy dispatch on the probed channel
count — two channels go to the stereo channel split (an oracle here: C10
treats `_merge_stereo` directly), anything else to `_diarize_mono`. -/
def diarize (num_channels : ℤ) (hf_token : String) (duration : Frac)
    (word_timestamps : List Word) (stereoResult pyannoteResult : DiarizationResult) :
    DiarizationResult :=
  if num_channels = 2 then stereoResult
  else diarize_mono hf_token duration word_timestamps pyannoteResult

/-- Sum of squares of a sample window. -/
def sumsq (xs : List Frac) : Frac :=
  xs.foldl (fun acc x => Frac.add acc (Frac.mul x x)) (Frac.ofInt 0)

/-- Mean square energy of a sample window — the square of
`np.sqrt(np.mean(x ** 2))`.  Square roots are omitted: both windows of a word
have the same length, and squaring is strictly monotone on nonnegative
values, so `rms_l >= rms_r` iff the mean squares compare the same way.  The
float evaluation of the sum is abstracted to exact arithmetic. -/
def rmsSq (xs : List Frac) : Frac := Frac.div (sumsq xs) (Frac.ofInt xs.length)

/-- `s = max(0, int(start_s * sr))` — the word's start sample index (Python
`int()` truncates the binary64 product). -/
def sIdx (sr : ℤ) (w : Word) : ℤ := max 0 (pyTrunc (fmul w.start (Frac.ofInt sr)))

/-- `e = min(n_samples, int(end_s * sr))` — the word's end sample index. -/
def eIdx (n sr : ℤ) (w : Word) : ℤ := min n (pyTrunc (fmul w.stop (Frac.ofInt sr)))

/-- `audio[c, s:e]` — a channel's sample window. -/
def wordSlice (audio : List Frac) (s e : ℤ) : List Frac :=
  (audio.drop s.toNat).take (e - s).toNat

/-- One iteration of the `_merge_stereo` word loop: clip the word's sample
window to `[0, n_samples)`, drop the word if the window is empty
(`if s >= e: continue`), otherwise compare channel energies —
`"operator" if rms_l >= rms_r else "client"`. -/
def assign_word (audioL audioR : List Frac) (sr : ℤ) (w : Word) :
    Option TranscriptSegment :=
  let s := sIdx sr w
  let e := eIdx (audioL.length : ℤ) sr w
  if e ≤ s then none
  else
    some ⟨if Frac.ble (rmsSq (wordSlice audioR s e)) (rmsSq (wordSlice audioL s e))
        then "operator" else "client",
      w.start, w.stop, w.word⟩

/-- `_merge_stereo`: per-word channel assignment followed by
`_merge_adjacent_segments`. -/
def merge_stereo (audioL audioR : List Frac) (sr : ℤ) (word_timestamps : List Word) :
    List TranscriptSegment :=
  merge_adjacent_segments (word_timestamps.filterMap (assign_word audioL audioR sr))

/-! ## `PipelineOrchestrator` (`pipeline.py`)

The orchestrator drives one `File` row and its three child rows through the
stages, committing and broadcasting along the way.  The database state for
one file is a record; `process_file` returns the ordered list of events it
produces: each committed transaction (`db.commit()` in `_set_status`,
`_save_*` and `_fail`) and each published progress frame (`_broadcast`).
The three engines are oracles: `none` models the call raising. -/

/-- The `File` row fields the orchestrator touches. -/
structure FileRec where
  status : String
  stage : ℤ
  progress : ℤ
  error_message : Option String
  retry_count : ℤ
deriving Repr, DecidableEq

/-- A `Transcription` row (also the shape of `TranscriptionResult`). -/
structure TranscriptionRow where
  full_text : String
  word_timestamps : List Word
deriving Repr, DecidableEq

/-- A `Diarization` row (`_save_diarization` renders the transcript
segments to JSON; the rendering is kept as the segment list). -/
structure DiarizationRow where
  segments : List TranscriptSegment
  method : String
  confidence : Option Frac
  num_speakers : ℤ
deriving Repr, DecidableEq

/-- An `Analysis` row. -/
structure AnalysisRow where
  standard : ℤ
  loyalty : ℤ
  kindness : ℤ
  overall : ℤ
  summary : String
  quotes : List Quote
  llm_model : String
deriving Repr, DecidableEq

/-- The database state for one file. -/
structure DbState where
  file : FileRec
  transcription : Option TranscriptionRow
  diarization : Option DiarizationRow
  analysis : Option AnalysisRow
deriving Repr, DecidableEq

/-- A progress frame broadcast to subscribers. -/
structure Frame where
  status : String
  stage : ℤ
  progress : ℤ
deriving Repr, DecidableEq

/-- An observable event of a pipeline run: a committed transaction or a
published frame. -/
inductive Event where
  | committed (st : DbState)
  | published (f : Frame)
deriving Repr, DecidableEq

/-- `STAGE_PROGRESS` — progress milestones after each stage completes. -/
def STAGE_PROGRESS (stage : ℤ) : ℤ :=
  if stage = 1 then 40
  else if stage = 2 then 70
  else if stage = 3 then 90
  else if stage = 4 then 100
  else 0

/-- `_set_status`: update status/stage/progress, commit, then broadcast the
same tuple. -/
def set_status (st : DbState) (status : String) (stage progress : ℤ) :
    DbState × List Event :=
  let f' : FileRec := { st.file with
                        status := status, stage := stage, progress := progress }
  let st' := { st with file := f' }
  (st', [Event.committed st', Event.published ⟨status, stage, progress⟩])

/-- `_fail`: mark failed, record the error, bump `retry_count`, commit,
broadcast a terminal frame with the current progress and stage. -/
def failFile (st : DbState) (error : String) : DbState × List Event :=
  let f' : FileRec := { st.file with
                        status := "failed",
                        error_message := some error,
                        retry_count := st.file.retry_count + 1 }
  let st' := { st with file := f' }
  (st', [Event.committed st',
    Event.published ⟨"failed", st'.file.stage, st'.file.progress⟩])

/-- `_save_transcription`: delete any existing child then insert, one
commit. -/
def save_transcription (st : DbState) (tr : TranscriptionRow) : DbState × List Event :=
  let st' := { st with transcription := some tr }
  (st', [Event.committed st'])

/-- `_save_diarization` (the result's transcript segments, method,
confidence and speaker count are persisted). -/
def save_diarization (st : DbState) (d : DiarizationResult) : DbState × List Event :=
  let row : DiarizationRow := ⟨d.transcript_segments, d.method, d.confidence, d.num_speakers⟩
  let st' := { st with diarization := some row }
  (st', [Event.committed st'])

/-- `_save_analysis`. -/
def save_analysis (st : DbState) (a : AnalysisResult) : DbState × List Event :=
  let row : AnalysisRow := ⟨a.standard, a.loyalty, a.kindness, a.overall, a.summary, a.quotes, a.llm_model⟩
  let st' := { st with analysis := some row }
  (st', [Event.committed st'])

/-- Stage 4 of `process_file`: finalise. -/
def stage4_done (st : DbState) : List Event :=
  (set_status st "done" 4 (STAGE_PROGRESS 4)).2

/-- Stage 3 of `process_file` (LLM analysis, non-fatal): both an engine
exception (`none`) and an unavailable engine (`some none`) leave no Analysis
row and fall through to stage 4. -/
def stage3_analysis (aOut : Option (Option AnalysisResult)) (st : DbState) :
    List Event :=
  if st.file.stage < 3 then
    let (st1, ev1) := set_status st "analyzing" 3 (STAGE_PROGRESS 2 + 5)
    match aOut with
    | some (some result) =>
        let (st2, ev2) := save_analysis st1 result
        ev1 ++ ev2 ++ stage4_done st2
    | some none => ev1 ++ stage4_done st1
    | none => ev1 ++ stage4_done st1
  else stage4_done st

/-- Stage 2 of `process_file` (diarization, fatal on failure).  The
transcription result only feeds the engine call (whose outcome `dOut` is an
oracle), so a missing checkpoint changes nothing here. -/
def stage2_diarization (dOut : Option DiarizationResult)
    (aOut : Option (Option AnalysisResult)) (st : DbState) : List Event :=
  if st.file.stage < 2 then
    let (st1, ev1) := set_status st "diarizing" 2 (STAGE_PROGRESS 1 + 5)
    match dOut with
    | none => ev1 ++ (failFile st1 "Диаризация: engine error").2
    | some d =>
        let (st2, ev2) := save_diarization st1 d
        let (st3, ev3) := set_status st2 "diarizing" 2 (STAGE_PROGRESS 2)
        ev1 ++ ev2 ++ ev3 ++ stage3_analysis aOut st3
  else stage3_analysis aOut st

/-- `process_file`: stage 1 runs only when `stage < 1`; with `stage ≥ 1` the
checkpoint is loaded (`_load_transcription`, which may find nothing — the
code then logs and carries `None` forward without re-running the engine). -/
def process_file (tOut : Option TranscriptionRow) (dOut : Option DiarizationResult)
    (aOut : Option (Option AnalysisResult)) (st0 : DbState) : List Event :=
  if st0.file.stage < 1 then
    let (st1, ev1) := set_status st0 "transcribing" 1 5
    match tOut with
    | none => ev1 ++ (failFile st1 "Транскрибация: engine error").2
    | some tr =>
        let (st2, ev2) := save_transcription st1 tr
        let (st3, ev3) := set_status st2 "transcribing" 1 (STAGE_PROGRESS 1)
        ev1 ++ ev2 ++ ev3 ++ stage2_diarization dOut aOut st3
  else stage2_diarization dOut aOut st0

/-- The committed database states of a run, in order. -/
def commits (events : List Event) : List DbState :=
  events.filterMap (fun e => match e with
    | Event.committed st => some st
    | Event.published _ => none)

/-- The published frames of a run, in order. -/
def frames (events : List Event) : List Frame :=
  events.filterMap (fun e => match e with
    | Event.committed _ => none
    | Event.published f => some f)

/-- Invariant I4 restricted to the two checkpoints the claim names:
`stage ≥ 1` requires a Transcription row, `stage ≥ 2` a Diarization row. -/
def I4holds (st : DbState) : Prop :=
  (1 ≤ st.file.stage → st.transcription ≠ none) ∧
    (2 ≤ st.file.stage → st.diarization ≠ none)

instance (st : DbState) : Decidable (I4holds st) := by
  unfold I4holds; infer_instance

/-- A freshly ingested file: `status=queued, stage=0`. -/
def fresh_state : DbState := ⟨⟨"queued", 0, 0, none, 0⟩, none, none, none⟩

/-- A file whose stage says "transcribed" but whose Transcription row is
missing (the situation of claim C2 for N = 1). -/
def missing_ckpt_state : DbState := ⟨⟨"queued", 1, 40, none, 0⟩, none, none, none⟩

/-- A successful transcription engine outcome. -/
def tr_ok : TranscriptionRow :=
  ⟨"привет мир", [⟨"привет", Frac.ofInt 0, Frac.ofInt 1⟩,
    ⟨"мир", Frac.ofInt 1, Frac.ofInt 2⟩]⟩

/-- A successful diarization engine outcome. -/
def diar_ok : DiarizationResult :=
  ⟨[⟨"operator", Frac.ofInt 0, Frac.ofInt 2⟩],
    [⟨"operator", Frac.ofInt 0, Frac.ofInt 2, "привет мир"⟩],
    "channel_split", none, 2, []⟩

/-- A successful analysis engine outcome. -/
def an_ok : AnalysisResult := ⟨80, 70, 90, 79, "хорошо", [], "gpt-4", false⟩

/-! ## `QueueManager.recover_interrupted` (`queue.py`)

The `File` table is a list of rows; the in-process FIFO is a list of ids.
The ORM loop mutates each selected row's `status` in place and enqueues its
id; unselected rows are untouched. -/

/-- The `File` row fields recovery reads or writes. -/
structure QueueFile where
  id : ℕ
  status : String
  stage : ℤ
  progress : ℤ
deriving Repr, DecidableEq

/-- `RESUMABLE_STATUSES`. -/
def RESUMABLE_STATUSES : List String := ["transcribing", "diarizing", "analyzing"]

/-- The recovery selection predicate `File.status.in_(RESUMABLE_STATUSES)`. -/
def isResumable (status : String) : Bool := RESUMABLE_STATUSES.contains status

/-- `recover_interrupted`: select the rows whose status is resumable; if none
return unchanged; otherwise set each selected row's status to `queued`
(commit per row) and enqueue its id, in table order. -/
def recover_interrupted (db : List QueueFile) (queue : List ℕ) :
    List QueueFile × List ℕ :=
  let stuck := db.filter (fun f => isResumable f.status)
  if stuck.isEmpty then (db, queue)
  else
    (db.map (fun f => if isResumable f.status then { f with status := "queued" } else f),
      queue ++ stuck.map (fun f => f.id))

/-! ## Validator magic bytes (`audio_validator.py`) -/

/-- The byte string `b"ftyp"`. -/
def ftypSig : List ℕ := [0x66, 0x74, 0x79, 0x70]

/-- The byte string `b"M4A"` tail of the long m4a signatures. -/
def m4aTail : List ℕ := [0x4d, 0x34, 0x41]

/-- `MAGIC_SIGNATURES` (contents as in the source: mp3 frame syncs and ID3,
RIFF, OggS, fLaC, the three fixed-size `ftypM4A` prefixes plus the bare
`ftyp`, and the EBML header for webm). -/
def MAGIC_SIGNATURES (ext : String) : List (List ℕ) :=
  if ext = ".mp3" then [[0xff, 0xfb], [0xff, 0xf3], [0xff, 0xf2], [0x49, 0x44, 0x33]]
  else if ext = ".wav" then [[0x52, 0x49, 0x46, 0x46]]
  else if ext = ".ogg" then [[0x4f, 0x67, 0x67, 0x53]]
  else if ext = ".flac" then [[0x66, 0x4c, 0x61, 0x43]]
  else if ext = ".m4a" then
    [[0x00, 0x00, 0x00, 0x18] ++ ftypSig ++ m4aTail,
      [0x00, 0x00, 0x00, 0x20] ++ ftypSig ++ m4aTail,
      [0x00, 0x00, 0x00, 0x1c] ++ ftypSig ++ m4aTail,
      ftypSig]
  else if ext = ".webm" then [[0x1a, 0x45, 0xdf, 0xa3]]
  else []

/-- The signature loop of `_check_magic_bytes`: for each signature, an m4a
file is first probed for `ftyp` at offset 4 (`content[4:8]`), then the
signature is compared as a prefix (`content[:len(sig)]`). -/
def check_magic_loop (content : List ℕ) (ext : String) : List (List ℕ) → Bool
  | [] => false
  | sig :: rest =>
      if ext = ".m4a" ∧ (content.drop 4).take 4 = ftypSig then true
      else if content.take sig.length = sig then true
      else check_magic_loop content ext rest

/-- `_check_magic_bytes`. -/
def check_magic_bytes (content : List ℕ) (ext : String) : Bool :=
  let signatures := MAGIC_SIGNATURES ext
  if signatures.isEmpty then true
  else check_magic_loop content ext signatures

/-- `settings.max_file_size_bytes` at the default `max_file_size_mb = 500`. -/
def max_file_size_bytes : ℕ := 500 * 1024 * 1024

/-! ## Upload batch (`upload.py`)

The enqueue decision after the batch commit (claim C4).  Per blob the
validator's intrinsic outcome (steps 1-6: extension, size, magic, hash,
probe, duration) is an oracle — `invalid msg`, or `valid h` carrying the
SHA-256 `file_hash` (hashes as `ℕ`); the dedup step 7 is decided inside the
loop against the growing hash map, as in the router. -/

/-- Per-blob validator outcome before the dedup check. -/
inductive BlobCheck where
  | invalid (msg : String)
  | valid (hash : ℕ)
deriving Repr, DecidableEq

/-- A `File` row as the upload router sees it. -/
structure UploadFile where
  id : ℕ
  hash : ℕ
  status : String
deriving Repr, DecidableEq

/-- Python dict lookup in the `hash_to_file_id` map (entries are prepended,
so the first match is the most recent binding, as for a dict). -/
def lookupHash (m : List (ℕ × ℕ)) (h : ℕ) : Option ℕ :=
  (m.find? (fun p => p.1 == h)).map (fun p => p.2)

/-- The state of the upload loop: the hash map, and the accumulated
accepted ids, error messages and newly inserted rows. -/
structure UploadState where
  hashMap : List (ℕ × ℕ)
  accepted : List ℕ
  errors : List String
  newRows : List UploadFile
  nextId : ℕ
deriving Repr, DecidableEq

/-- The per-blob body of the upload loop: a validation error is recorded; a
duplicate hash resolves to the pre-existing id (appended to `accepted`); a
new blob gets a fresh id, a new `queued` row, and extends the hash map. -/
def upload_step (st : UploadState) (b : BlobCheck) : UploadState :=
  match b with
  | BlobCheck.invalid msg => { st with errors := st.errors ++ [msg] }
  | BlobCheck.valid h =>
      match lookupHash st.hashMap h with
      | some fid => { st with accepted := st.accepted ++ [fid] }
      | none =>
          { st with
            hashMap := (h, st.nextId) :: st.hashMap,
            accepted := st.accepted ++ [st.nextId],
            newRows := st.newRows ++ [⟨st.nextId, h, "queued"⟩],
            nextId := st.nextId + 1 }

/-- `upload_files` (the transactional part and the post-commit enqueue).
The initial hash map indexes the non-failed rows; all-failed batches abort
with `none` (HTTP 400); otherwise the batch commits and each accepted id
whose row's status is `queued` is enqueued — the returned triple is the
committed table, the accepted ids and the enqueued ids. -/
def upload_files (db : List UploadFile) (blobs : List BlobCheck) (firstFreshId : ℕ) :
    Option (List UploadFile × List ℕ × List ℕ) :=
  let initMap := (db.filter (fun f => f.status ≠ "failed")).foldl
    (fun m f => (f.hash, f.id) :: m) []
  let final := blobs.foldl upload_step ⟨initMap, [], [], [], firstFreshId⟩
  if final.errors ≠ [] ∧ final.accepted = [] then none
  else
    let db' := db ++ final.newRows
    let enqueued := final.accepted.filter (fun fid =>
      match db'.find? (fun row => row.id == fid) with
      | some row => row.status == "queued"
      | none => false)
    some (db', final.accepted, enqueued)

/-! ## Concrete runs used by the pipeline and upload claims -/

/-- An uninterrupted successful run from stage 0 with all engines
succeeding. -/
def happy_run_events : List Event :=
  process_file (some tr_ok) (some diar_ok) (some (some an_ok)) fresh_state

/-- The run entered at `stage = 1` with the Transcription checkpoint
missing. -/
def missing_ckpt_events : List Event :=
  process_file (some tr_ok) (some diar_ok) (some (some an_ok)) missing_ckpt_state

/-- The first commit of `happy_run_events`: the stage-1 begin transaction. -/
def stage1_begin_state : DbState := ⟨⟨"transcribing", 1, 5, none, 0⟩, none, none, none⟩

/-- A table holding one pre-existing file (id 1, hash 7) still `queued`. -/
def c4_db : List UploadFile := [⟨1, 7, "queued"⟩]

/-- Bytes `b"ftypAAAA"`: the m4a signature `b"ftyp"` as a prefix, with
offset 4 not `ftyp`. -/
def c5_bad : List ℕ := ftypSig ++ [65, 65, 65, 65]

/-- A well-formed m4a header (`\x00\x00\x00\x18ftypM4A…`). -/
def c5_good : List ℕ := [0x00, 0x00, 0x00, 0x18] ++ ftypSig ++ m4aTail ++ [0, 0, 0]

/-! # Theorems -/

/-- Model validation: the binary64 constants agree with the exact values of
the corresponding Python doubles (`Fraction(0.4)` and `Fraction(0.3)`). -/
theorem c04_c03_exact :
    Frac.val c04 = (3602879701896397 : ℚ) / 9007199254740992 ∧
      Frac.val c03 = (5404319552844595 : ℚ) / 18014398509481984 := by
  constructor
  · rw [show c04 = ⟨7205759403792794, 18014398509481984⟩ from by decide]
    norm_num [Frac.val]
  · rw [show c03 = ⟨5404319552844595, 18014398509481984⟩ from by decide]
    norm_num [Frac.val]

/-- C3, counterexample: for the engine response with scores (0, 1, 24) and
overall 15, the spec's `round(0.4·std + 0.3·loy + 0.3·kind)` is 8 and the
engine's overall deviates from it by more than 5, so the claim requires the
stored overall to be 8 — but the code stores 7 (the binary64 evaluation of
the weighted mean rounds down). -/
theorem C3_counterexample :
    parse_and_validate (some (Json.obj c3_fields)) = some c3_result ∧
      spec_expected_overall 0 1 24 = 8 ∧
      5 < ((15 : ℤ) - spec_expected_overall 0 1 24).natAbs ∧
      c3_result.overall ≠ spec_expected_overall 0 1 24 := by
  decide

/-- C3, amended: every parsed result has its three criterion scores clamped
into [0,100]; the engine's overall is likewise clamped, and the stored
overall equals `expected_overall` — the binary64 evaluation of
`round(0.4·std + 0.3·loy + 0.3·kind)` over the clamped scores — whenever the
clamped engine overall deviates from that value by more than 5, and the
clamped engine overall otherwise. -/
theorem C3_amended (fields : List (String × Json)) (r : AnalysisResult)
    (h : parse_and_validate (some (Json.obj fields)) = some r) :
    (0 ≤ r.standard ∧ r.standard ≤ 100) ∧
      (0 ≤ r.loyalty ∧ r.loyalty ≤ 100) ∧
      (0 ≤ r.kindness ∧ r.kindness ≤ 100) ∧
      ∃ ov0 : ℤ, pyInt (jget fields "overall") = some ov0 ∧
        0 ≤ clamp0_100 ov0 ∧ clamp0_100 ov0 ≤ 100 ∧
        r.overall =
          (if 5 < (clamp0_100 ov0 - expected_overall r.standard r.loyalty r.kindness).natAbs
            then expected_overall r.standard r.loyalty r.kindness
            else clamp0_100 ov0) := by
  simp only [parse_and_validate] at h
  split at h
  · rcases hstd : pyInt (jget fields "standard") with _ | std0 <;> rw [hstd] at h
    · exact absurd h (by simp)
    rcases hloy : pyInt (jget fields "loyalty") with _ | loy0 <;> rw [hloy] at h
    · exact absurd h (by simp)
    rcases hkin : pyInt (jget fields "kindness") with _ | kind0 <;> rw [hkin] at h
    · exact absurd h (by simp)
    rcases hov : pyInt (jget fields "overall") with _ | ov0 <;> rw [hov] at h
    · exact absurd h (by simp)
    simp only [Option.some.injEq] at h
    subst h
    refine ⟨⟨?_, ?_⟩, ⟨?_, ?_⟩, ⟨?_, ?_⟩, ov0, rfl, ?_, ?_, ?_⟩ <;>
      simp [finishResult, clamp0_100]
  · exact absurd h (by simp)

/-- C3, witness for the amended theorem at the concrete response
`c3_fields`. -/
theorem C3_amended_witness :
    (0 ≤ c3_result.standard ∧ c3_result.standard ≤ 100) ∧
      (0 ≤ c3_result.loyalty ∧ c3_result.loyalty ≤ 100) ∧
      (0 ≤ c3_result.kindness ∧ c3_result.kindness ≤ 100) ∧
      ∃ ov0 : ℤ, pyInt (jget c3_fields "overall") = some ov0 ∧
        0 ≤ clamp0_100 ov0 ∧ clamp0_100 ov0 ≤ 100 ∧
        c3_result.overall =
          (if 5 < (clamp0_100 ov0 -
              expected_overall c3_result.standard c3_result.loyalty c3_result.kindness).natAbs
            then expected_overall c3_result.standard c3_result.loyalty c3_result.kindness
            else clamp0_100 ov0) :=
  C3_amended c3_fields c3_result (by decide)

/-- C6, counterexample: with the credential configured and every attempt
returning a fully valid response (so none of the claim's four conditions
holds — `spec_unavailable` is false), `analyze` still returns `none` when the
operator text is blank, where the claim demands a populated result.  The same
attempts with non-blank text do produce a result. -/
theorem C6_counterexample :
    analyze true "" [some (some c6_good), some (some c6_good), some (some c6_good)] = none ∧
      spec_unavailable true [some (some c6_good), some (some c6_good), some (some c6_good)] =
        false ∧
      (analyze true "x" [some (some c6_good), some (some c6_good), some (some c6_good)]).isSome =
        true := by
  decide

/-- `_call_with_retry` fails exactly when every attempt either raises or
returns a response that fails validation. -/
theorem call_with_retry_eq_none_iff (attempts : List AttemptOutcome) :
    call_with_retry attempts = none ↔
      ∀ o ∈ attempts, o.bind parse_and_validate = none := by
  induction attempts with
  | nil => simp [call_with_retry]
  | cons o rest ih =>
      rcases o with _ | p
      · simpa [call_with_retry] using ih
      · rcases hp : parse_and_validate p with _ | r <;>
          simp [call_with_retry, hp, ih]

/-- C6, amended: the analysis entry point returns `none` exactly when the API
credential is missing, the operator text is blank after stripping, or every
retry attempt either raises or returns an invalid response (unparseable, not
a JSON object, a required field missing, or a required score that `int()`
cannot convert); for every other input it returns a populated result. -/
theorem C6_amended (hasApiKey : Bool) (operatorText : String)
    (attempts : List AttemptOutcome) :
    analyze hasApiKey operatorText attempts = none ↔
      hasApiKey = false ∨ pyStrip operatorText = "" ∨
        ∀ o ∈ attempts, o.bind parse_and_validate = none := by
  cases hasApiKey with
  | false => simp [analyze]
  | true =>
      by_cases hb : pyStrip operatorText = "" <;>
        simp [analyze, hb, call_with_retry_eq_none_iff]

/-- C6, witness for the amended theorem: a missing credential yields `none`. -/
theorem C6_amended_witness : analyze false "x" [] = none :=
  (C6_amended false "x" []).mpr (Or.inl rfl)

/-- C1: invariant I4 is broken by the very first committed transaction of a
fresh run — `_set_status(db_file, "transcribing", stage=1, progress=5)`
commits `stage = 1` before any Transcription row exists (the module docstring
defines stage 1 as "transcribed", so this commit contradicts the code's own
checkpoint semantics). -/
theorem C1_code_bug :
    (commits happy_run_events).head? = some stage1_begin_state ∧
      ¬ I4holds stage1_begin_state := by
  decide

/-- C2: entering at `stage = 1` with the Transcription checkpoint missing,
the code logs "re-running" but never re-runs stage 1: although the engine
outcome is available (`some tr_ok`), no commit of the run ever contains a
Transcription row, and the run still finishes with `status = done,
stage = 4`. -/
theorem C2_code_bug :
    (∀ st ∈ commits missing_ckpt_events, st.transcription = none) ∧
      (commits missing_ckpt_events).getLast?.map
          (fun st => (st.file.status, st.file.stage, st.transcription)) =
        some ("done", 4, none) := by
  decide

/-- C8: in an uninterrupted successful run from stage 0 the published frames
are exactly 5/40 (transcribing), 45/70 (diarizing), 75 (analyzing) and 100
(done) — the analysis stage's baseline-end frame `(analyzing, 3, 90)` is
never published, although `STAGE_PROGRESS[3] = 90` is defined for it. -/
theorem C8_code_bug :
    frames happy_run_events =
      [⟨"transcribing", 1, 5⟩, ⟨"transcribing", 1, 40⟩, ⟨"diarizing", 2, 45⟩,
        ⟨"diarizing", 2, 70⟩, ⟨"analyzing", 3, 75⟩, ⟨"done", 4, 100⟩] ∧
      Frame.mk "analyzing" 3 90 ∉ frames happy_run_events := by
  decide

/-- `mergeGo` preserves a speaker label shared by the accumulator and every
remaining word. -/
theorem mergeGo_speaker (sp : String) :
    ∀ (ws : List TranscriptSegment) (current : TranscriptSegment),
      current.speaker = sp → (∀ s ∈ ws, s.speaker = sp) →
      ∀ s ∈ mergeGo current ws, s.speaker = sp := by
  intro ws
  induction ws with
  | nil =>
      intro current hc _ s hs
      simp only [mergeGo, List.mem_singleton] at hs
      exact hs ▸ hc
  | cons w ws ih =>
      intro current hc hws s hs
      simp only [mergeGo] at hs
      by_cases h : w.speaker = current.speaker
      · rw [if_pos h] at hs
        exact ih ⟨current.speaker, current.start, w.stop, current.text ++ " " ++ w.text⟩
          hc (fun t ht => hws t (List.mem_cons_of_mem w ht)) s hs
      · rw [if_neg h] at hs
        rcases List.mem_cons.mp hs with rfl | hs'
        · exact hc
        · exact ih w (hws w (List.mem_cons_self w ws))
            (fun t ht => hws t (List.mem_cons_of_mem w ht)) s hs'

/-- `_merge_adjacent_segments` preserves a speaker label shared by every
word. -/
theorem merge_adjacent_speaker (sp : String) (l : List TranscriptSegment)
    (hl : ∀ s ∈ l, s.speaker = sp) :
    ∀ s ∈ merge_adjacent_segments l, s.speaker = sp := by
  cases l with
  | nil => intro s hs; simp [merge_adjacent_segments] at hs
  | cons w ws =>
      exact mergeGo_speaker sp ws w (hl w (List.mem_cons_self w ws))
        (fun t ht => hl t (List.mem_cons_of_mem w ht))

/-- C7: a non-stereo input with no diarization credential configured yields
(without failing) the single-speaker fallback: every transcript segment is
`operator`, method is `pyannote`, confidence is absent, one speaker, and a
warning is recorded. -/
theorem C7_confirmed (num_channels : ℤ) (h : num_channels ≠ 2) (duration : Frac)
    (word_timestamps : List Word) (stereoResult pyannoteResult : DiarizationResult) :
    (∀ seg ∈ (diarize num_channels "" duration word_timestamps stereoResult
        pyannoteResult).transcript_segments, seg.speaker = "operator") ∧
      (diarize num_channels "" duration word_timestamps stereoResult
        pyannoteResult).method = "pyannote" ∧
      (diarize num_channels "" duration word_timestamps stereoResult
        pyannoteResult).confidence = none ∧
      (diarize num_channels "" duration word_timestamps stereoResult
        pyannoteResult).num_speakers = 1 ∧
      (diarize num_channels "" duration word_timestamps stereoResult
        pyannoteResult).warnings ≠ [] := by
  have hd : diarize num_channels "" duration word_timestamps stereoResult pyannoteResult =
      fallback_single_speaker duration word_timestamps [hfTokenWarning] := by
    simp [diarize, h, diarize_mono]
  rw [hd]
  refine ⟨?_, rfl, rfl, rfl, by simp [fallback_single_speaker]⟩
  apply merge_adjacent_speaker
  intro s hs
  rcases List.mem_map.mp hs with ⟨w, _, rfl⟩
  rfl

/-- C7, witness at a concrete mono file with one word. -/
theorem C7_witness :
    (∀ seg ∈ (diarize 1 "" (Frac.ofInt 30) [⟨"привет", Frac.ofInt 0, Frac.ofInt 1⟩]
        diar_ok diar_ok).transcript_segments, seg.speaker = "operator") ∧
      (diarize 1 "" (Frac.ofInt 30) [⟨"привет", Frac.ofInt 0, Frac.ofInt 1⟩]
        diar_ok diar_ok).method = "pyannote" ∧
      (diarize 1 "" (Frac.ofInt 30) [⟨"привет", Frac.ofInt 0, Frac.ofInt 1⟩]
        diar_ok diar_ok).confidence = none ∧
      (diarize 1 "" (Frac.ofInt 30) [⟨"привет", Frac.ofInt 0, Frac.ofInt 1⟩]
        diar_ok diar_ok).num_speakers = 1 ∧
      (diarize 1 "" (Frac.ofInt 30) [⟨"привет", Frac.ofInt 0, Frac.ofInt 1⟩]
        diar_ok diar_ok).warnings ≠ [] :=
  C7_confirmed 1 (by decide) (Frac.ofInt 30) [⟨"привет", Frac.ofInt 0, Frac.ofInt 1⟩]
    diar_ok diar_ok

/-- C10: in the stereo channel split, (a) a word window with exactly equal
left and right RMS energies (equal mean squares, compared as rationals by
cross-multiplication) is assigned to `operator` — the `rms_l >= rms_r` test
favours the left channel on ties — and (b) a word whose clipped sample window
is empty (`s >= e`) is dropped: it contributes nothing to the transcript
segments. -/
theorem C10_confirmed :
    (∀ (audioL audioR : List Frac) (sr : ℤ) (w : Word),
        sIdx sr w < eIdx (audioL.length : ℤ) sr w →
        (rmsSq (wordSlice audioL (sIdx sr w) (eIdx (audioL.length : ℤ) sr w))).num *
            (rmsSq (wordSlice audioR (sIdx sr w) (eIdx (audioL.length : ℤ) sr w))).den =
          (rmsSq (wordSlice audioR (sIdx sr w) (eIdx (audioL.length : ℤ) sr w))).num *
            (rmsSq (wordSlice audioL (sIdx sr w) (eIdx (audioL.length : ℤ) sr w))).den →
        assign_word audioL audioR sr w = some ⟨"operator", w.start, w.stop, w.word⟩) ∧
      (∀ (audioL audioR : List Frac) (sr : ℤ) (w : Word),
        eIdx (audioL.length : ℤ) sr w ≤ sIdx sr w →
        assign_word audioL audioR sr w = none ∧
          ∀ ws, merge_stereo audioL audioR sr (w :: ws) = merge_stereo audioL audioR sr ws) := by
  constructor
  · intro audioL audioR sr w hlt heq
    simp only [assign_word]
    rw [if_neg (not_le.mpr hlt)]
    have hble : Frac.ble
        (rmsSq (wordSlice audioR (sIdx sr w) (eIdx (audioL.length : ℤ) sr w)))
        (rmsSq (wordSlice audioL (sIdx sr w) (eIdx (audioL.length : ℤ) sr w))) = true := by
      simp only [Frac.ble, decide_eq_true_eq]
      exact le_of_eq heq.symm
    rw [hble]
    rfl
  · intro audioL audioR sr w hle
    have hnone : assign_word audioL audioR sr w = none := by
      simp only [assign_word]
      rw [if_pos hle]
    refine ⟨hnone, fun ws => ?_⟩
    simp [merge_stereo, List.filterMap_cons, hnone]

/-- C10, witness: a one-sample stereo file where both channels are identical
(tied energies → operator), and a zero-length word window that is dropped. -/
theorem C10_witness :
    assign_word [⟨1, 1⟩] [⟨1, 1⟩] 16000 ⟨"а", ⟨0, 1⟩, ⟨1, 16000⟩⟩ =
        some ⟨"operator", ⟨0, 1⟩, ⟨1, 16000⟩, "а"⟩ ∧
      assign_word [⟨1, 1⟩] [⟨1, 1⟩] 16000 ⟨"б", ⟨0, 1⟩, ⟨0, 1⟩⟩ = none ∧
      merge_stereo [⟨1, 1⟩] [⟨1, 1⟩] 16000 [⟨"б", ⟨0, 1⟩, ⟨0, 1⟩⟩] =
        merge_stereo [⟨1, 1⟩] [⟨1, 1⟩] 16000 [] :=
  ⟨C10_confirmed.1 [⟨1, 1⟩] [⟨1, 1⟩] 16000 ⟨"а", ⟨0, 1⟩, ⟨1, 16000⟩⟩ (by decide) (by decide),
    (C10_confirmed.2 [⟨1, 1⟩] [⟨1, 1⟩] 16000 ⟨"б", ⟨0, 1⟩, ⟨0, 1⟩⟩ (by decide)).1,
    (C10_confirmed.2 [⟨1, 1⟩] [⟨1, 1⟩] 16000 ⟨"б", ⟨0, 1⟩, ⟨0, 1⟩⟩ (by decide)).2 []⟩

/-- C9: crash recovery selects exactly the rows whose status is resumable
(`transcribing`, `diarizing`, `analyzing`), rewrites only their status to
`queued` (id, stage and progress untouched), leaves every other row exactly
as it was, and enqueues precisely the selected ids in table order. -/
theorem C9_confirmed (db : List QueueFile) (queue : List ℕ) :
    (recover_interrupted db queue).1.length = db.length ∧
      (∀ (i : ℕ) (f : QueueFile), db[i]? = some f →
        ∃ f', (recover_interrupted db queue).1[i]? = some f' ∧
          f'.id = f.id ∧ f'.stage = f.stage ∧ f'.progress = f.progress ∧
          (isResumable f.status = true → f'.status = "queued") ∧
          (isResumable f.status = false → f' = f)) ∧
      (recover_interrupted db queue).2 =
        queue ++ (db.filter (fun f => isResumable f.status)).map
          (fun f => f.id) := by
  unfold recover_interrupted
  by_cases hempty : (db.filter (fun f => isResumable f.status)).isEmpty
  · rw [if_pos hempty]
    rw [List.isEmpty_iff] at hempty
    have hnone : ∀ f ∈ db, isResumable f.status = false := by
      intro f hf
      by_contra hcon
      have htrue : isResumable f.status = true := by
        revert hcon; cases isResumable f.status <;> simp
      have hmem : f ∈ db.filter (fun f => isResumable f.status) :=
        List.mem_filter.mpr ⟨hf, htrue⟩
      rw [hempty] at hmem
      exact absurd hmem (List.not_mem_nil f)
    refine ⟨rfl, ?_, ?_⟩
    · intro i f hf
      refine ⟨f, hf, rfl, rfl, rfl, ?_, fun _ => rfl⟩
      intro htrue
      rw [hnone f (List.getElem?_mem hf)] at htrue
      exact absurd htrue (by simp)
    · rw [hempty]
      simp
  · rw [if_neg hempty]
    refine ⟨by simp, ?_, rfl⟩
    intro i f hf
    refine ⟨if isResumable f.status then { f with status := "queued" } else f,
      ?_, ?_, ?_, ?_, ?_, ?_⟩
    · rw [List.getElem?_map, hf]
      rfl
    · cases hres : isResumable f.status <;> simp [hres]
    · cases hres : isResumable f.status <;> simp [hres]
    · cases hres : isResumable f.status <;> simp [hres]
    · intro htrue; simp [htrue]
    · intro hfalse; simp [hfalse]

/-- C9, witness at a concrete table with one interrupted and one finished
file. -/
theorem C9_witness :
    (recover_interrupted [⟨1, "diarizing", 1, 45⟩, ⟨2, "done", 4, 100⟩] []).1.length =
        ([⟨1, "diarizing", 1, 45⟩, ⟨2, "done", 4, 100⟩] : List QueueFile).length ∧
      (∀ (i : ℕ) (f : QueueFile),
        ([⟨1, "diarizing", 1, 45⟩, ⟨2, "done", 4, 100⟩] : List QueueFile)[i]? = some f →
        ∃ f', (recover_interrupted [⟨1, "diarizing", 1, 45⟩, ⟨2, "done", 4, 100⟩] []).1[i]? =
            some f' ∧
          f'.id = f.id ∧ f'.stage = f.stage ∧ f'.progress = f.progress ∧
          (isResumable f.status = true → f'.status = "queued") ∧
          (isResumable f.status = false → f' = f)) ∧
      (recover_interrupted [⟨1, "diarizing", 1, 45⟩, ⟨2, "done", 4, 100⟩] []).2 =
        [] ++ (([⟨1, "diarizing", 1, 45⟩, ⟨2, "done", 4, 100⟩] : List QueueFile).filter
          (fun f => isResumable f.status)).map (fun f => f.id) :=
  C9_confirmed [⟨1, "diarizing", 1, 45⟩, ⟨2, "done", 4, 100⟩] []

/-- C4: a batch containing a blob whose hash (7) duplicates a pre-existing
file (id 1) that is still `queued` commits no new row, resolves the blob to
id 1 — and then enqueues id 1 again, because the post-commit guard
`row.status == "queued"` passes for it.  The code's own comment ("Skip
duplicates — they already have results") and the spec ("for each newly
inserted id (not duplicates), enqueue it") both say duplicates are never
enqueued. -/
theorem C4_code_bug :
    upload_files c4_db [BlobCheck.valid 7] 2 = some (c4_db, [1], [1]) := by
  decide

/-- C5, counterexample: the bytes `b"ftypAAAA"` (positive size, within the
size limit) are accepted by the m4a magic check although the four bytes at
offset 4 are not `ftyp` — the signature list also contains `b"ftyp"` checked
as a plain prefix. -/
theorem C5_counterexample :
    check_magic_bytes c5_bad ".m4a" = true ∧ (c5_bad.drop 4).take 4 ≠ ftypSig ∧
      0 < c5_bad.length ∧ c5_bad.length ≤ max_file_size_bytes := by
  decide

/-- A prefix of length 11 whose bytes 4..7 are `ftyp` forces the offset-4
test to succeed. -/
theorem take11_ftyp_at_4 (content : List ℕ) (tail3 : List ℕ)
    (h : content.take 11 = [0x00, 0x00, 0x00, 0x18] ++ ftypSig ++ tail3 ∨
      content.take 11 = [0x00, 0x00, 0x00, 0x20] ++ ftypSig ++ tail3 ∨
      content.take 11 = [0x00, 0x00, 0x00, 0x1c] ++ ftypSig ++ tail3) :
    (content.drop 4).take 4 = ftypSig := by
  have h8 : content.take 8 = (content.take 11).take 8 := by
    rw [List.take_take]
    norm_num
  have hdt : (content.drop 4).take 4 = (content.take 8).drop 4 := by
    rw [List.drop_take]
  rcases h with h | h | h <;>
    · rw [hdt, h8, h]
      rfl

/-- C5, amended: for an `.m4a` input passing the extension and size checks,
the magic-byte check accepts exactly when the four bytes at offset 4 equal
`ftyp` or the content itself begins with `ftyp` (the signature list contains
`b"ftyp"`, which the loop also compares as a prefix). -/
theorem C5_amended (content : List ℕ) (h1 : 0 < content.length)
    (h2 : content.length ≤ max_file_size_bytes) :
    check_magic_bytes content ".m4a" = true ↔
      ((content.drop 4).take 4 = ftypSig ∨ content.take 4 = ftypSig) := by
  clear h1 h2
  by_cases hoff : (content.drop 4).take 4 = ftypSig
  · simp only [check_magic_bytes, MAGIC_SIGNATURES, check_magic_loop]
    simp [hoff]
  · constructor
    · intro hacc
      simp only [check_magic_bytes, MAGIC_SIGNATURES] at hacc
      rw [if_neg (by simp)] at hacc
      simp only [check_magic_loop, hoff, and_false, if_false] at hacc
      by_cases h18 : content.take 11 = [0x00, 0x00, 0x00, 0x18] ++ ftypSig ++ m4aTail
      · exact absurd (take11_ftyp_at_4 content m4aTail (Or.inl h18)) hoff
      by_cases h20 : content.take 11 = [0x00, 0x00, 0x00, 0x20] ++ ftypSig ++ m4aTail
      · exact absurd (take11_ftyp_at_4 content m4aTail (Or.inr (Or.inl h20))) hoff
      by_cases h1c : content.take 11 = [0x00, 0x00, 0x00, 0x1c] ++ ftypSig ++ m4aTail
      · exact absurd (take11_ftyp_at_4 content m4aTail (Or.inr (Or.inr h1c))) hoff
      rw [if_neg (by simpa using h18), if_neg (by simpa using h20),
        if_neg (by simpa using h1c)] at hacc
      right
      by_cases h4 : content.take 4 = ftypSig
      · exact h4
      · rw [if_neg (by simpa [ftypSig] using h4)] at hacc
        exact absurd hacc (by simp)
    · intro hpre
      rcases hpre with hpre | hpre
      · exact absurd hpre hoff
      · simp only [check_magic_bytes, MAGIC_SIGNATURES, check_magic_loop]
        simp [hoff, hpre, ftypSig]

/-- C5, witness for the amended theorem at a well-formed m4a header. -/
theorem C5_amended_witness :
    0 < c5_good.length ∧ c5_good.length ≤ max_file_size_bytes ∧
      (check_magic_bytes c5_good ".m4a" = true ↔
        ((c5_good.drop 4).take 4 = ftypSig ∨ c5_good.take 4 = ftypSig)) :=
  ⟨by decide, by decide, C5_amended c5_good (by decide) (by decide)⟩

end CallAnalytics
